/-
  Verification of the oref insulin-dosing core (nocturne repository).

  Shallow embedding of:
  - `src/Core/oref/src/insulin/curves.rs` (InsulinCurve and its methods),
  - `src/Core/oref/src/error.rs` (OrefError),
  - `src/Core/oref/src/types/output.rs` (DetermineBasalResult and its
    constructors, plus the serde-attribute-driven wire form),
  - the decision engine and insulin curve mathematics, modelled from the
    specification where the corresponding modules (`determine_basal`,
    `insulin/calculate`) are not part of the visible sources.

  Rust `f64` fields are modelled as `ℚ` where only exact arithmetic,
  comparison, `max` and `clamp` occur (all exactly representable), and as
  `ℝ` for the exponential insulin-activity model.
-/
import Mathlib

namespace Oref

/-! ## Insulin curves (`src/Core/oref/src/insulin/curves.rs`) -/

/-- `InsulinCurve` from curves.rs: the closed set of insulin action curve
    variants. -/
inductive InsulinCurve where
  | Bilinear
  | RapidActing
  | UltraRapid
deriving DecidableEq, Repr

namespace InsulinCurve

/-- `default_peak`: default peak time for this curve (minutes). -/
def default_peak : InsulinCurve → ℕ
  | Bilinear => 75
  | RapidActing => 75
  | UltraRapid => 55

/-- `min_dia`: minimum DIA for this curve (hours). -/
def min_dia : InsulinCurve → ℚ
  | Bilinear => 3
  | RapidActing => 5
  | UltraRapid => 5

/-- `min_peak`: minimum custom peak time (minutes). -/
def min_peak : InsulinCurve → ℕ
  | Bilinear => 75
  | RapidActing => 50
  | UltraRapid => 35

/-- `max_peak`: maximum custom peak time (minutes). -/
def max_peak : InsulinCurve → ℕ
  | Bilinear => 75
  | RapidActing => 120
  | UltraRapid => 100

/-- `requires_long_dia` from curves.rs. -/
def requires_long_dia : InsulinCurve → Bool
  | Bilinear => false
  | RapidActing => true
  | UltraRapid => true

/-- Rust `u32::clamp(self, min, max)`: if below `lo` return `lo`, if above
    `hi` return `hi`, else the value itself. -/
def clampU32 (x lo hi : ℕ) : ℕ :=
  if x < lo then lo else if hi < x then hi else x

/-- `effective_dia`: `dia.max(self.min_dia())`. -/
def effective_dia (c : InsulinCurve) (dia : ℚ) : ℚ :=
  max dia c.min_dia

/-- `effective_peak`: clamp a custom peak to `[min_peak, max_peak]` when
    `use_custom` is set, otherwise the default peak. -/
def effective_peak (c : InsulinCurve) (peak : ℕ) (use_custom : Bool) : ℕ :=
  if use_custom then clampU32 peak c.min_peak c.max_peak else c.default_peak

/-- `Display for InsulinCurve`: the displayed name of each variant. -/
def toDisplay : InsulinCurve → String
  | Bilinear => "bilinear"
  | RapidActing => "rapid-acting"
  | UltraRapid => "ultra-rapid"

end InsulinCurve

/-! ## ASCII lowercasing (model of Rust `str::to_lowercase` on ASCII input)

`FromStr for InsulinCurve` first lowercases its input.  All accepted
spellings are ASCII, so the ASCII fragment of Unicode lowercasing is the
relevant behaviour. -/

/-- Lowercase a single ASCII character; other characters unchanged. -/
def asciiLower (c : Char) : Char :=
  if 'A' ≤ c ∧ c ≤ 'Z' then Char.ofNat (c.toNat + 32) else c

/-- Lowercase a string character-by-character (ASCII model of
    `str::to_lowercase`). -/
def lowerStr (s : String) : String :=
  ⟨s.data.map asciiLower⟩

/-- The spellings accepted by `FromStr for InsulinCurve` for each variant
    (after lowercasing): hyphenated, concatenated, and underscored. -/
def spellings : InsulinCurve → List String
  | .Bilinear => ["bilinear"]
  | .RapidActing => ["rapid-acting", "rapidacting", "rapid_acting"]
  | .UltraRapid => ["ultra-rapid", "ultrarapid", "ultra_rapid"]

/-- `FromStr for InsulinCurve`: lowercase the input, then match the accepted
    spellings; anything else is an error message built from the raw input. -/
def InsulinCurve.fromStr (s : String) : Except String InsulinCurve :=
  if lowerStr s = "bilinear" then .ok .Bilinear
  else if lowerStr s = "rapid-acting" ∨ lowerStr s = "rapidacting" ∨
      lowerStr s = "rapid_acting" then .ok .RapidActing
  else if lowerStr s = "ultra-rapid" ∨ lowerStr s = "ultrarapid" ∨
      lowerStr s = "ultra_rapid" then .ok .UltraRapid
  else .error ("Unknown insulin curve: " ++ s)

/-! ## Error type (`src/Core/oref/src/error.rs`)

The `serde`-feature-gated `Json` variant is a build-time adapter surface and
is compiled out in the core configuration, so the core error type has exactly
the seven taxonomy variants below. -/

/-- `OrefError` from error.rs: one variant per taxonomy kind. -/
inductive OrefError where
  | InvalidProfile (msg : String)
  | InvalidTreatment (msg : String)
  | InvalidGlucose (msg : String)
  | CalculationError (msg : String)
  | MissingData (msg : String)
  | InvalidTimestamp (msg : String)
  | OutOfRange (field : String) (value : ℚ) (min : ℚ) (max : ℚ)
deriving DecidableEq, Repr

namespace OrefError

/-- `OrefError::out_of_range`: constructor for the out-of-range variant. -/
def out_of_range (field : String) (value min max : ℚ) : OrefError :=
  OrefError.OutOfRange field value min max

end OrefError

/-! ## Decision result (`src/Core/oref/src/types/output.rs`) -/

/-- `DetermineBasalResult` from output.rs: the result of the determine-basal
    algorithm.  `f64` fields become `ℚ`, `u32` becomes `ℕ`, `Vec<f64>`
    becomes `List ℚ`, `Option` stays `Option`. -/
structure DetermineBasalResult where
  rate : Option ℚ
  duration : Option ℕ
  reason : String
  cob : ℚ
  iob : ℚ
  eventual_bg : ℚ
  insulin_req : Option ℚ
  units : Option ℚ
  tick : Option String
  error : Option String
  deliver_at : Option String
  sensitivity_ratio : Option ℚ
  variable_sens : Option ℚ
  predicted_bg : Option (List ℚ)
  pred_bgs_uam : Option (List ℚ)
  pred_bgs_iob : Option (List ℚ)
  pred_bgs_zt : Option (List ℚ)
  pred_bgs_cob : Option (List ℚ)
  bg_mins_ago : Option ℚ
  target_bg : Option ℚ
  smb_enabled : Option Bool
  carbs_req : Option ℚ
  threshold : Option ℚ
deriving DecidableEq, Repr

namespace DetermineBasalResult

/-- `Default for DetermineBasalResult`: every optional field `None`, the
    numeric fields `0.0`, the reason empty. -/
def default : DetermineBasalResult where
  rate := none
  duration := none
  reason := ""
  cob := 0
  iob := 0
  eventual_bg := 0
  insulin_req := none
  units := none
  tick := none
  error := none
  deliver_at := none
  sensitivity_ratio := none
  variable_sens := none
  predicted_bg := none
  pred_bgs_uam := none
  pred_bgs_iob := none
  pred_bgs_zt := none
  pred_bgs_cob := none
  bg_mins_ago := none
  target_bg := none
  smb_enabled := none
  carbs_req := none
  threshold := none

/-- `DetermineBasalResult::error`: an error result, all other fields at
    their defaults.  (Named `errorResult` because the structure already has
    a field `error`.) -/
def errorResult (message : String) : DetermineBasalResult :=
  { default with error := some message }

/-- `DetermineBasalResult::temp_basal`. -/
def temp_basal (rate : ℚ) (duration : ℕ) (reason : String) : DetermineBasalResult :=
  { default with rate := some rate, duration := some duration, reason := reason }

/-- `DetermineBasalResult::smb`. -/
def smb (units rate : ℚ) (duration : ℕ) (reason : String) : DetermineBasalResult :=
  { default with
      units := some units
      rate := some rate
      duration := some duration
      reason := reason }

/-- `DetermineBasalResult::no_action`. -/
def no_action (reason : String) : DetermineBasalResult :=
  { default with reason := reason }

/-- `DetermineBasalResult::has_smb`. -/
def has_smb (r : DetermineBasalResult) : Bool :=
  match r.units with
  | none => false
  | some u => decide (0 < u)

/-- `DetermineBasalResult::has_temp`. -/
def has_temp (r : DetermineBasalResult) : Bool :=
  r.rate.isSome && r.duration.isSome

/-- `DetermineBasalResult::has_error`. -/
def has_error (r : DetermineBasalResult) : Bool :=
  r.error.isSome

end DetermineBasalResult

/-! ## Wire form of `DetermineBasalResult`

Model of the serde attributes on output.rs: `rename_all = "camelCase"` and
`skip_serializing_if = "Option::is_none"` on every optional field.  The wire
form is the ordered list of emitted key/value pairs. -/

/-- A JSON value, as far as the wire form of `DetermineBasalResult`
    needs one. -/
inductive Json where
  | null
  | num (q : ℚ)
  | str (s : String)
  | bool (b : Bool)
  | arr (xs : List Json)

/-- Whether a JSON value is `null`. -/
def Json.isNull : Json → Bool
  | .null => true
  | _ => false

/-- An optional serde field: emitted as a single key/value pair when
    present, skipped entirely when `None`
    (`skip_serializing_if = "Option::is_none"`). -/
def optField {α : Type} (key : String) (f : α → Json) : Option α → List (String × Json)
  | none => []
  | some v => [(key, f v)]

/-- The serialized wire form of a `DetermineBasalResult`: fields in
    declaration order, names in lower camel case per
    `rename_all = "camelCase"`, optional `None` fields omitted. -/
def serializeResult (r : DetermineBasalResult) : List (String × Json) :=
  optField "rate" Json.num r.rate ++
  optField "duration" (fun n : ℕ => Json.num (n : ℚ)) r.duration ++
  [("reason", Json.str r.reason)] ++
  [("cob", Json.num r.cob)] ++
  [("iob", Json.num r.iob)] ++
  [("eventualBg", Json.num r.eventual_bg)] ++
  optField "insulinReq" Json.num r.insulin_req ++
  optField "units" Json.num r.units ++
  optField "tick" Json.str r.tick ++
  optField "error" Json.str r.error ++
  optField "deliverAt" Json.str r.deliver_at ++
  optField "sensitivityRatio" Json.num r.sensitivity_ratio ++
  optField "variableSens" Json.num r.variable_sens ++
  optField "predictedBg" (fun l => Json.arr (l.map Json.num)) r.predicted_bg ++
  optField "predBgsUam" (fun l => Json.arr (l.map Json.num)) r.pred_bgs_uam ++
  optField "predBgsIob" (fun l => Json.arr (l.map Json.num)) r.pred_bgs_iob ++
  optField "predBgsZt" (fun l => Json.arr (l.map Json.num)) r.pred_bgs_zt ++
  optField "predBgsCob" (fun l => Json.arr (l.map Json.num)) r.pred_bgs_cob ++
  optField "bgMinsAgo" Json.num r.bg_mins_ago ++
  optField "targetBg" Json.num r.target_bg ++
  optField "smbEnabled" Json.bool r.smb_enabled ++
  optField "carbsReq" Json.num r.carbs_req ++
  optField "threshold" Json.num r.threshold

/-- The emitted key names of the wire form. -/
def wireKeys (r : DetermineBasalResult) : List String :=
  (serializeResult r).map Prod.fst

/-- An ASCII lowercase letter. -/
def isAsciiLowerCh (c : Char) : Bool :=
  decide ('a' ≤ c) && decide (c ≤ 'z')

/-- An ASCII letter. -/
def isAsciiAlphaCh (c : Char) : Bool :=
  isAsciiLowerCh c || (decide ('A' ≤ c) && decide (c ≤ 'Z'))

/-- A lower-camel-case identifier: nonempty, starts with a lowercase ASCII
    letter, contains only ASCII letters (in particular no underscore or
    hyphen). -/
def isLowerCamel (s : String) : Bool :=
  match s.data with
  | [] => false
  | c :: cs => isAsciiLowerCh c && cs.all isAsciiAlphaCh

/-! ## Decision engine input snapshot

Modelled from the spec: the `determine_basal` module is declared in lib.rs
but its source is not part of the visible files, so the decision engine and
its input snapshot are modelled from spec sections 3 (data model) and 4.5
(state machine). -/

/-- Modelled from the spec: `GlucoseReading` (section 3) — value in mg/dL,
    timestamp (minutes), optional trend direction. -/
structure GlucoseReading where
  value : ℚ
  timestamp : ℚ
  trend : Option String
deriving DecidableEq, Repr

/-- Modelled from the spec: the `Profile` fields the decision engine
    consumes (section 3). -/
structure Profile where
  dia : ℚ
  curve : InsulinCurve
  custom_peak : Option ℕ
  sens : ℚ
  carb_ratio : ℚ
  current_basal : ℚ
  max_daily_basal : ℚ
  current_basal_safety_multiplier : ℚ
  safety_multiplier : ℚ
  max_iob : ℚ
  smb_enabled : Bool
  max_smb : ℚ
  uam_enabled : Bool
  threshold : ℚ
  autosens_min : ℚ
  autosens_max : ℚ
  target_bg : ℚ
deriving DecidableEq, Repr

/-- Modelled from the spec: `IOBResult` (section 3). -/
structure IOBResult where
  iob : ℚ
  bolus_iob : ℚ
  basal_iob : ℚ
  activity : ℚ
deriving DecidableEq, Repr

/-- Modelled from the spec: `COBResult` (section 3). -/
structure COBResult where
  cob : ℚ
  carb_impact : ℚ
deriving DecidableEq, Repr

/-- Modelled from the spec: the immutable input snapshot of one decision
    cycle (sections 2, 5): profile, glucose history ordered by time, the
    IOB/COB/autosens results of this cycle, the explicitly supplied current
    time, and the currently running temp basal, if any. -/
structure Snapshot where
  profile : Profile
  glucose : List GlucoseReading
  iob : IOBResult
  cob : COBResult
  autosens_ratio : ℚ
  current_time : ℚ
  current_temp : Option (ℚ × ℕ)
deriving DecidableEq, Repr

/-- Last element of a list, or a default. -/
def lastD (l : List ℚ) (d : ℚ) : ℚ :=
  match l.getLast? with
  | none => d
  | some x => x

/-- Minimum of a list of rationals, folded from an initial value. -/
def listMinFrom (d : ℚ) (l : List ℚ) : ℚ :=
  l.foldl min d

/-- Modelled from the spec: the decision engine `determine_basal`
    (section 4.5), whose source module is not among the visible files.
    One deterministic decision per invocation:
    1. validate glucose freshness (9-minute window) else an error result;
    2. `variable_sens = sens / autosens_ratio`;
    3. four 5-minute-sampled predictions out to DIA (IOB-only decline,
       IOB+COB, IOB+unannounced-meal, zero-temp);
    4. eventual BG from the COB-aware trajectory (IOB-only when COB is 0)
       and min guard BG as the lowest predicted point;
    5. safety gate: below-threshold current or min-guard BG forces rate 0,
       no SMB, a reason stating the breach, and skips steps 6-8;
    6. `insulin_req = (eventual_bg - target_bg) / variable_sens`;
    7. temp-basal sizing clamped to the safety maximum, with a 0.1 U/hr
       hysteresis against the currently running rate;
    8. SMB sizing bounded by the per-cycle maximum and the IOB headroom,
       skipped below a 0.1 U minimum;
    9./10. reason trace and populated prediction fields. -/
def determine_basal (s : Snapshot) : DetermineBasalResult :=
  match s.glucose.getLast? with
  | none => DetermineBasalResult.errorResult "stale glucose data"
  | some g =>
    if s.current_time - g.timestamp < 9 then
      let bg := g.value
      let vs := s.profile.sens / s.autosens_ratio
      let n : ℕ := max 1 (Int.toNat ⌊s.profile.dia * 12⌋)
      let iobDrop : ℕ → ℚ := fun i => bg - s.iob.iob * vs * ((i : ℚ) + 1) / (n : ℚ)
      let carbTotal := s.cob.cob / s.profile.carb_ratio * vs
      let predIOB := (List.range n).map iobDrop
      let predCOB := (List.range n).map (fun i => iobDrop i + carbTotal * ((i : ℚ) + 1) / (n : ℚ))
      let predUAM := (List.range n).map (fun i => iobDrop i + s.cob.carb_impact * ((i : ℚ) + 1))
      let predZT := (List.range n).map
        (fun i => iobDrop i + s.profile.current_basal * vs / 12 * ((i : ℚ) + 1))
      let eventualBG := if 0 < s.cob.cob then lastD predCOB bg else lastD predIOB bg
      let minGuard := listMinFrom bg (predIOB ++ predCOB ++ predUAM ++ predZT)
      if bg < s.profile.threshold ∨ minGuard < s.profile.threshold then
        { DetermineBasalResult.default with
            rate := some 0
            duration := some 30
            reason := "BG below threshold: " ++ (toString (min bg minGuard) ++ " < "
              ++ toString s.profile.threshold ++ "; setting zero temp, no SMB")
            cob := s.cob.cob
            iob := s.iob.iob
            eventual_bg := eventualBG
            sensitivity_ratio := some s.autosens_ratio
            variable_sens := some vs
            predicted_bg := some predIOB
            pred_bgs_iob := some predIOB
            pred_bgs_cob := some predCOB
            pred_bgs_uam := some predUAM
            pred_bgs_zt := some predZT
            bg_mins_ago := some (s.current_time - g.timestamp)
            target_bg := some s.profile.target_bg
            threshold := some s.profile.threshold
            smb_enabled := some false }
      else
        let insulinReq := (eventualBG - s.profile.target_bg) / vs
        let maxSafe := min (s.profile.max_daily_basal * s.profile.safety_multiplier)
          (s.profile.current_basal * s.profile.current_basal_safety_multiplier)
        let candidate := max 0 (min (s.profile.current_basal + 2 * insulinReq) maxSafe)
        let smbSize : Option ℚ :=
          if s.profile.smb_enabled ∧ 0 < insulinReq ∧ s.iob.iob < s.profile.max_iob then
            let sz := min (insulinReq / 2) (min s.profile.max_smb (s.profile.max_iob - s.iob.iob))
            if sz < 1/10 then none else some sz
          else none
        let trace := "IOB: " ++ toString s.iob.iob ++ ", COB: " ++ toString s.cob.cob
          ++ ", eventual BG " ++ toString eventualBG ++ ", target " ++ toString s.profile.target_bg
          ++ ", sensitivity ratio " ++ toString s.autosens_ratio
        let currentRate := (match s.current_temp with | some p => p.1 | none => s.profile.current_basal)
        let base := { DetermineBasalResult.default with
            reason := trace
            cob := s.cob.cob
            iob := s.iob.iob
            eventual_bg := eventualBG
            insulin_req := some insulinReq
            units := smbSize
            sensitivity_ratio := some s.autosens_ratio
            variable_sens := some vs
            predicted_bg := some predIOB
            pred_bgs_iob := some predIOB
            pred_bgs_cob := some predCOB
            pred_bgs_uam := some predUAM
            pred_bgs_zt := some predZT
            bg_mins_ago := some (s.current_time - g.timestamp)
            target_bg := some s.profile.target_bg
            threshold := some s.profile.threshold
            smb_enabled := some s.profile.smb_enabled }
        if |candidate - currentRate| < 1/10 then
          { base with reason := trace ++ "; no change" }
        else
          { base with rate := some candidate, duration := some 30 }
    else DetermineBasalResult.errorResult "stale glucose data"

/-! ## Insulin curve model

Modelled from the spec: the curve evaluation module (`insulin/calculate`,
exporting `calculate_iob_contrib`) is not among the visible files; the
formulas below are spec section 4.1 verbatim.  Times are in minutes;
`pk` is the peak time and `en = DIA * 60` the end of insulin action. -/

/-- Modelled from the spec (4.1): `tau = peak*(1 - peak/end) / (1 - 2*peak/end)`. -/
noncomputable def tauOf (pk en : ℝ) : ℝ :=
  pk * (1 - pk / en) / (1 - 2 * pk / en)

/-- Modelled from the spec (4.1): `a = 2*tau/end`. -/
noncomputable def aOf (pk en : ℝ) : ℝ :=
  2 * tauOf pk en / en

/-- Modelled from the spec (4.1): `S = 1/(1 - a + (1+a)*exp(-end/tau))`. -/
noncomputable def sOf (pk en : ℝ) : ℝ :=
  1 / (1 - aOf pk en + (1 + aOf pk en) * Real.exp (-en / tauOf pk en))

/-- Modelled from the spec (4.1): activity of one unit of insulin,
    `(S / tau^2) * t * (1 - t/end) * exp(-t/tau)`. -/
noncomputable def expActivity (pk en t : ℝ) : ℝ :=
  sOf pk en / (tauOf pk en) ^ 2 * t * (1 - t / en) * Real.exp (-t / tauOf pk en)

/-- Modelled from the spec (4.1): remaining-IOB fraction of one unit,
    `1 - S*(1-a)*((t^2/(tau*end*(1-a)) - t/tau - 1)*exp(-t/tau) + 1)`,
    before the piecewise zero clauses. -/
noncomputable def expFracCore (pk en t : ℝ) : ℝ :=
  1 - sOf pk en * (1 - aOf pk en) *
    ((t ^ 2 / (tauOf pk en * en * (1 - aOf pk en)) - t / tauOf pk en - 1) *
      Real.exp (-t / tauOf pk en) + 1)

/-- Modelled from the spec (4.1): the exponential remaining fraction is the
    core formula on `[0, end)` and `0` for `t < 0` and `t ≥ end`. -/
noncomputable def expFrac (pk en t : ℝ) : ℝ :=
  if t < 0 then 0 else if en ≤ t then 0 else expFracCore pk en t

/-- Modelled from the spec (4.1): the bilinear remaining fraction — the
    normalized integral from `t` to the end of DIA of the triangular
    activity curve rising to its peak at 75 minutes and back to zero at
    `en = 180` (3-hour DIA): `1 - t^2/(en*pk)` up to the peak, then
    `(en-t)^2/(en*(en-pk))`, and `0` outside `[0, en)`. -/
noncomputable def bilinFrac (t : ℝ) : ℝ :=
  if t < 0 then 0 else if 180 ≤ t then 0
  else if t ≤ 75 then 1 - t ^ 2 / (180 * 75)
  else (180 - t) ^ 2 / (180 * (180 - 75))

/-- Modelled from the spec (4.1, 9): remaining-fraction function of each
    curve variant at its default parameters (default peak, minimum DIA):
    Bilinear is the triangular model on 180 minutes, RapidActing and
    UltraRapid the exponential model with peaks 75 and 55 minutes on a
    5-hour DIA. -/
noncomputable def iobRemainingFrac : InsulinCurve → ℝ → ℝ
  | .Bilinear => bilinFrac
  | .RapidActing => expFrac 75 300
  | .UltraRapid => expFrac 55 300

/-- Modelled from the spec (4.2): a single bolus of size `dose` contributes
    `dose * remaining_fraction(t)` to IOB (`calculate_iob_contrib`). -/
noncomputable def calculate_iob_contrib (c : InsulinCurve) (dose t : ℝ) : ℝ :=
  dose * iobRemainingFrac c t

/-! ## Concrete snapshots used by witnesses -/

/-- Scenario C of the spec: glucose 60 mg/dL with threshold 70. -/
def snapLow : Snapshot where
  profile :=
    { dia := 5
      curve := .RapidActing
      custom_peak := none
      sens := 50
      carb_ratio := 10
      current_basal := 1
      max_daily_basal := 2
      current_basal_safety_multiplier := 4
      safety_multiplier := 3
      max_iob := 3
      smb_enabled := true
      max_smb := 1
      uam_enabled := true
      threshold := 70
      autosens_min := 7/10
      autosens_max := 6/5
      target_bg := 100 }
  glucose := [⟨70, 0, none⟩, ⟨60, 5, none⟩]
  iob := ⟨1, 1, 0, 1/100⟩
  cob := ⟨0, 0⟩
  autosens_ratio := 1
  current_time := 6
  current_temp := none

/-! # Theorems -/

/-! ## Shared helper lemmas -/

theorem optField_map_fst {α : Type} (key : String) (f : α → Json) (o : Option α) :
    (optField key f o).map Prod.fst = if o.isSome then [key] else [] := by
  cases o <;> rfl

theorem mem_optField {α : Type} {p : String × Json} {key : String} {f : α → Json}
    {o : Option α} : p ∈ optField key f o ↔ ∃ v, o = some v ∧ p = (key, f v) := by
  cases o <;> simp [optField]

theorem mem_ite_nil_iff {α : Type} {a : α} {c : Prop} [Decidable c] {l : List α} :
    (a ∈ (if c then l else [])) ↔ c ∧ a ∈ l := by
  split <;> simp [*]

/-! ## C2 — error results carry no dosing recommendation -/

/-- C2: for every message `m`, `DetermineBasalResult::error(m)` sets the
    error field and leaves every dosing field at its default: `rate`,
    `duration`, `units`, `insulin_req` are `None`, `cob`, `iob`,
    `eventual_bg` are `0.0`, and all five prediction sequences are absent. -/
theorem c2_error_result_defaults (m : String) :
    (DetermineBasalResult.errorResult m).error = some m ∧
    (DetermineBasalResult.errorResult m).rate = none ∧
    (DetermineBasalResult.errorResult m).duration = none ∧
    (DetermineBasalResult.errorResult m).units = none ∧
    (DetermineBasalResult.errorResult m).insulin_req = none ∧
    (DetermineBasalResult.errorResult m).cob = 0 ∧
    (DetermineBasalResult.errorResult m).iob = 0 ∧
    (DetermineBasalResult.errorResult m).eventual_bg = 0 ∧
    (DetermineBasalResult.errorResult m).predicted_bg = none ∧
    (DetermineBasalResult.errorResult m).pred_bgs_uam = none ∧
    (DetermineBasalResult.errorResult m).pred_bgs_iob = none ∧
    (DetermineBasalResult.errorResult m).pred_bgs_zt = none ∧
    (DetermineBasalResult.errorResult m).pred_bgs_cob = none := by
  repeat' constructor

/-! ## C5 — effective peak clamps into the valid range -/

/-- C5: with `use_custom = true`, `effective_peak` always lands in
    `[min_peak, max_peak]`, equals the request when the request is already
    in range, and with `use_custom = false` returns the default peak
    (75, 75, 55 minutes). -/
theorem c5_effective_peak (c : InsulinCurve) (p : ℕ) :
    c.min_peak ≤ c.effective_peak p true ∧
    c.effective_peak p true ≤ c.max_peak ∧
    (c.min_peak ≤ p → p ≤ c.max_peak → c.effective_peak p true = p) ∧
    c.effective_peak p false = c.default_peak ∧
    InsulinCurve.default_peak .Bilinear = 75 ∧
    InsulinCurve.default_peak .RapidActing = 75 ∧
    InsulinCurve.default_peak .UltraRapid = 55 := by
  refine ⟨?_, ?_, fun h1 h2 => ?_, by cases c <;> rfl, rfl, rfl, rfl⟩ <;>
    cases c <;>
    simp only [InsulinCurve.effective_peak, InsulinCurve.clampU32, InsulinCurve.min_peak,
      InsulinCurve.max_peak] at * <;>
    split_ifs <;> omega

/-- Witness for C5 at `RapidActing` with an in-range request of 60. -/
theorem c5_effective_peak_witness :
    InsulinCurve.effective_peak .RapidActing 60 true = 60 ∧
    InsulinCurve.effective_peak .RapidActing 60 false = 75 := by
  have h := c5_effective_peak .RapidActing 60
  exact ⟨h.2.2.1 (by decide) (by decide), h.2.2.2.1⟩

/-! ## C6 — effective DIA enforces the curve's minimum -/

/-- C6: `effective_dia` is at least the curve's minimum DIA (3 hours for
    Bilinear, 5 hours for RapidActing and UltraRapid) and equals the
    configured DIA whenever that already meets the minimum. -/
theorem c6_effective_dia (c : InsulinCurve) (d : ℚ) :
    c.min_dia ≤ c.effective_dia d ∧
    (c.min_dia ≤ d → c.effective_dia d = d) ∧
    InsulinCurve.min_dia .Bilinear = 3 ∧
    InsulinCurve.min_dia .RapidActing = 5 ∧
    InsulinCurve.min_dia .UltraRapid = 5 :=
  ⟨le_max_right _ _, fun h => max_eq_left h, rfl, rfl, rfl⟩

/-- Witness for C6 at `RapidActing` with DIA 6 hours. -/
theorem c6_effective_dia_witness :
    InsulinCurve.min_dia .RapidActing ≤ InsulinCurve.effective_dia .RapidActing 6 ∧
    InsulinCurve.effective_dia .RapidActing 6 = 6 := by
  have h := c6_effective_dia .RapidActing 6
  exact ⟨h.1, h.2.1 (by decide)⟩

/-! ## C7 — error taxonomy and the out-of-range constructor -/

/-- C7: `OrefError` has exactly one variant per taxonomy kind, and
    `out_of_range(field, value, min, max)` builds the `OutOfRange` variant
    holding exactly those four payloads. -/
theorem c7_error_taxonomy :
    (∀ (f : String) (v mn mx : ℚ),
      OrefError.out_of_range f v mn mx = OrefError.OutOfRange f v mn mx) ∧
    (∀ e : OrefError,
      (∃ m, e = .InvalidProfile m) ∨ (∃ m, e = .InvalidTreatment m) ∨
      (∃ m, e = .InvalidGlucose m) ∨ (∃ m, e = .CalculationError m) ∨
      (∃ m, e = .MissingData m) ∨ (∃ m, e = .InvalidTimestamp m) ∨
      (∃ f v mn mx, e = .OutOfRange f v mn mx)) := by
  refine ⟨fun f v mn mx => rfl, fun e => ?_⟩
  cases e with
  | InvalidProfile m => exact Or.inl ⟨m, rfl⟩
  | InvalidTreatment m => exact Or.inr (Or.inl ⟨m, rfl⟩)
  | InvalidGlucose m => exact Or.inr (Or.inr (Or.inl ⟨m, rfl⟩))
  | CalculationError m => exact Or.inr (Or.inr (Or.inr (Or.inl ⟨m, rfl⟩)))
  | MissingData m => exact Or.inr (Or.inr (Or.inr (Or.inr (Or.inl ⟨m, rfl⟩))))
  | InvalidTimestamp m =>
      exact Or.inr (Or.inr (Or.inr (Or.inr (Or.inr (Or.inl ⟨m, rfl⟩)))))
  | OutOfRange f v mn mx =>
      exact Or.inr (Or.inr (Or.inr (Or.inr (Or.inr (Or.inr ⟨f, v, mn, mx, rfl⟩)))))

/-! ## C9 — the bilinear custom-peak range is a single point -/

/-- C9: for the Bilinear curve `min_peak = max_peak = 75`, so every custom
    peak request is overridden to 75 minutes. -/
theorem c9_bilinear_peak_fixed (p : ℕ) :
    InsulinCurve.effective_peak .Bilinear p true = 75 ∧
    InsulinCurve.min_peak .Bilinear = 75 ∧
    InsulinCurve.max_peak .Bilinear = 75 := by
  refine ⟨?_, rfl, rfl⟩
  simp only [InsulinCurve.effective_peak, InsulinCurve.clampU32, InsulinCurve.min_peak,
    InsulinCurve.max_peak, if_true]
  split_ifs <;> omega

/-! ## C10 — display/parse round trip -/

/-- C10: parsing the displayed name round-trips for every variant; parsing
    is case-insensitive (inputs equal after lowercasing are accepted as the
    same variant); every hyphenated, concatenated, or underscored spelling
    of a variant name is accepted; every other string is rejected with an
    error. -/
theorem c10_display_fromstr_roundtrip :
    (∀ c : InsulinCurve, InsulinCurve.fromStr c.toDisplay = .ok c) ∧
    (∀ s t : String, lowerStr s = lowerStr t →
      ∀ c : InsulinCurve, (InsulinCurve.fromStr s = .ok c ↔ InsulinCurve.fromStr t = .ok c)) ∧
    (∀ (s : String) (c : InsulinCurve), lowerStr s ∈ spellings c →
      InsulinCurve.fromStr s = .ok c) ∧
    (∀ s : String, (∀ c, lowerStr s ∉ spellings c) →
      ∃ e, InsulinCurve.fromStr s = .error e) := by
  refine ⟨fun c => by cases c <;> rfl, fun s t h c => ?_, fun s c h => ?_, fun s h => ?_⟩
  · simp only [InsulinCurve.fromStr, h]
    split_ifs <;> simp
  · cases c
    · simp [spellings] at h
      simp [InsulinCurve.fromStr, h]
    · simp [spellings] at h
      rcases h with h | h | h <;> simp [InsulinCurve.fromStr, h]
    · simp [spellings] at h
      rcases h with h | h | h <;> simp [InsulinCurve.fromStr, h]
  · have hb : ¬(lowerStr s = "bilinear") := by
      have := h .Bilinear; simpa [spellings] using this
    have hr : ¬(lowerStr s = "rapid-acting" ∨ lowerStr s = "rapidacting" ∨
        lowerStr s = "rapid_acting") := by
      have := h .RapidActing; simp [spellings] at this
      push_neg
      exact ⟨this.1, this.2.1, this.2.2⟩
    have hu : ¬(lowerStr s = "ultra-rapid" ∨ lowerStr s = "ultrarapid" ∨
        lowerStr s = "ultra_rapid") := by
      have := h .UltraRapid; simp [spellings] at this
      push_neg
      exact ⟨this.1, this.2.1, this.2.2⟩
    refine ⟨"Unknown insulin curve: " ++ s, ?_⟩
    simp only [InsulinCurve.fromStr]
    rw [if_neg hb, if_neg hr, if_neg hu]

/-! ## C1 — low-glucose safety gate -/

/-- C1: whenever the current (fresh, most recent) glucose reading is below
    the configured threshold, the decision engine forces a zero temp-basal
    rate, issues no SMB — so the result never carries a positive rate or a
    positive SMB size — and the reason text states the threshold breach. -/
theorem c1_safety_gate (s : Snapshot) (g : GlucoseReading)
    (hg : s.glucose.getLast? = some g)
    (hfresh : s.current_time - g.timestamp < 9)
    (hlow : g.value < s.profile.threshold) :
    (determine_basal s).rate = some 0 ∧
    (determine_basal s).units = none ∧
    (∀ r, (determine_basal s).rate = some r → r ≤ 0) ∧
    ∃ rest, (determine_basal s).reason = "BG below threshold: " ++ rest := by
  simp only [determine_basal, hg]
  rw [if_pos hfresh]
  rw [if_pos (Or.inl hlow)]
  exact ⟨rfl, rfl, fun r hr => by cases hr; exact le_refl 0, ⟨_, rfl⟩⟩

/-- Witness for C1: Scenario C of the spec — glucose 60 mg/dL against a
    threshold of 70 forces a zero temp and no SMB. -/
theorem c1_safety_gate_witness :
    (determine_basal snapLow).rate = some 0 ∧
    (determine_basal snapLow).units = none := by
  have h := c1_safety_gate snapLow ⟨60, 5, none⟩ (by decide) (by norm_num [snapLow])
    (by norm_num [snapLow])
  exact ⟨h.1, h.2.1⟩

/-! ## C4 — determinism of the decision engine -/

/-- C4: the decision engine is a pure function of the input snapshot
    (profile, histories, IOB/COB/autosens results, and the explicitly
    supplied current time): field-for-field equal snapshots produce
    field-for-field identical results, with no other dependence. -/
theorem c4_deterministic (s₁ s₂ : Snapshot) (h : s₁ = s₂) :
    determine_basal s₁ = determine_basal s₂ := by
  rw [h]

/-- Witness for C4 at a concrete snapshot. -/
theorem c4_deterministic_witness :
    determine_basal snapLow = determine_basal snapLow :=
  c4_deterministic snapLow snapLow rfl

/-! ## C8 — wire form: camel-case names, omit-if-absent optional fields -/

/-- C8: every emitted wire key is lower camel case; no emitted value is a
    JSON null; and each of the nineteen optional fields, when `None`, is
    omitted from the wire form entirely. -/
theorem c8_wire_form (r : DetermineBasalResult) :
    (∀ k ∈ wireKeys r, isLowerCamel k = true) ∧
    (∀ p ∈ serializeResult r, (Prod.snd p).isNull = false) ∧
    (r.rate = none → "rate" ∉ wireKeys r) ∧
    (r.duration = none → "duration" ∉ wireKeys r) ∧
    (r.insulin_req = none → "insulinReq" ∉ wireKeys r) ∧
    (r.units = none → "units" ∉ wireKeys r) ∧
    (r.tick = none → "tick" ∉ wireKeys r) ∧
    (r.error = none → "error" ∉ wireKeys r) ∧
    (r.deliver_at = none → "deliverAt" ∉ wireKeys r) ∧
    (r.sensitivity_ratio = none → "sensitivityRatio" ∉ wireKeys r) ∧
    (r.variable_sens = none → "variableSens" ∉ wireKeys r) ∧
    (r.predicted_bg = none → "predictedBg" ∉ wireKeys r) ∧
    (r.pred_bgs_uam = none → "predBgsUam" ∉ wireKeys r) ∧
    (r.pred_bgs_iob = none → "predBgsIob" ∉ wireKeys r) ∧
    (r.pred_bgs_zt = none → "predBgsZt" ∉ wireKeys r) ∧
    (r.pred_bgs_cob = none → "predBgsCob" ∉ wireKeys r) ∧
    (r.bg_mins_ago = none → "bgMinsAgo" ∉ wireKeys r) ∧
    (r.target_bg = none → "targetBg" ∉ wireKeys r) ∧
    (r.smb_enabled = none → "smbEnabled" ∉ wireKeys r) ∧
    (r.carbs_req = none → "carbsReq" ∉ wireKeys r) ∧
    (r.threshold = none → "threshold" ∉ wireKeys r) := by
  refine ⟨?_, ?_, ?_, ?_, ?_, ?_, ?_, ?_, ?_, ?_, ?_, ?_, ?_, ?_, ?_, ?_, ?_, ?_, ?_, ?_, ?_⟩
  · intro k hk
    simp only [wireKeys, serializeResult, List.append_assoc, List.map_append, optField_map_fst,
      List.mem_append, mem_ite_nil_iff, List.map_cons, List.map_nil,
      List.mem_singleton] at hk
    repeat
      first
        | (rw [hk.2]; decide)
        | (rw [hk]; decide)
        | (rcases hk with hk | hk)
  · intro p hp
    simp only [serializeResult, List.append_assoc, List.mem_append, List.mem_singleton] at hp
    repeat
      first
        | (obtain ⟨v, -, rfl⟩ := mem_optField.mp hp; exact rfl)
        | (rw [hp]; exact rfl)
        | (rcases hp with hp | hp)
  all_goals
    intro h
    simp [wireKeys, serializeResult, List.map_append, optField_map_fst, mem_ite_nil_iff, h]

/-- Witness for C8 at the all-default result: the always-present key is
    camel case and absent optional fields are omitted. -/
theorem c8_wire_form_witness :
    isLowerCamel "reason" = true ∧
    "rate" ∉ wireKeys DetermineBasalResult.default ∧
    "duration" ∉ wireKeys DetermineBasalResult.default := by
  have h := c8_wire_form DetermineBasalResult.default
  exact ⟨h.1 "reason" (by decide), h.2.2.1 rfl, h.2.2.2.1 rfl⟩

/-! ## C3 — remaining-fraction properties of the insulin curves

Helper lemmas about the exponential model, for a generic peak `pk` and end
`en` with `0 < tau`, `2 * tau < en`, `0 < en` (all three hold for the
RapidActing and UltraRapid instantiations below). -/

theorem a_lt_one (pk en : ℝ) (hen : 0 < en) (hlt : 2 * tauOf pk en < en) :
    aOf pk en < 1 := by
  rw [aOf, div_lt_one hen]
  linarith

theorem a_pos (pk en : ℝ) (hτ : 0 < tauOf pk en) (hen : 0 < en) : 0 < aOf pk en := by
  rw [aOf]
  positivity

theorem denom_pos (pk en : ℝ) (hτ : 0 < tauOf pk en) (hen : 0 < en)
    (hlt : 2 * tauOf pk en < en) :
    0 < 1 - aOf pk en + (1 + aOf pk en) * Real.exp (-en / tauOf pk en) := by
  have h1 : aOf pk en < 1 := a_lt_one pk en hen hlt
  have h2 : 0 < aOf pk en := a_pos pk en hτ hen
  have h3 : 0 < (1 + aOf pk en) * Real.exp (-en / tauOf pk en) :=
    mul_pos (by linarith) (Real.exp_pos _)
  linarith

theorem s_pos (pk en : ℝ) (hτ : 0 < tauOf pk en) (hen : 0 < en)
    (hlt : 2 * tauOf pk en < en) : 0 < sOf pk en :=
  one_div_pos.mpr (denom_pos pk en hτ hen hlt)

/-- The exponential remaining fraction is 1 at `t = 0`. -/
theorem core_zero (pk en : ℝ) : expFracCore pk en 0 = 1 := by
  simp [expFracCore, Real.exp_zero]

/-- The exponential remaining fraction vanishes exactly at `t = en`:
    the normalization constant `S` is chosen so. -/
theorem core_end (pk en : ℝ) (hτ : 0 < tauOf pk en) (hen : 0 < en)
    (hlt : 2 * tauOf pk en < en) : expFracCore pk en en = 0 := by
  have hτ' : tauOf pk en ≠ 0 := ne_of_gt hτ
  have hen' : en ≠ 0 := ne_of_gt hen
  have hD := denom_pos pk en hτ hen hlt
  have hD' : 1 - aOf pk en + (1 + aOf pk en) * Real.exp (-en / tauOf pk en) ≠ 0 :=
    ne_of_gt hD
  have hne : en - 2 * tauOf pk en ≠ 0 := by
    have : 0 < en - 2 * tauOf pk en := by linarith
    exact ne_of_gt this
  have hkey : (1 - aOf pk en) *
      ((en ^ 2 / (tauOf pk en * en * (1 - aOf pk en)) - en / tauOf pk en - 1) *
        Real.exp (-en / tauOf pk en) + 1)
      = 1 - aOf pk en + (1 + aOf pk en) * Real.exp (-en / tauOf pk en) := by
    rw [aOf]
    have h2 : (1 : ℝ) - 2 * tauOf pk en / en ≠ 0 := by
      rw [sub_ne_zero]
      intro h
      apply hne
      field_simp at h
      linarith
    field_simp
    ring
  rw [expFracCore, sOf, mul_assoc, hkey, one_div_mul_cancel hD']
  exact sub_self 1

/-- Everywhere, the derivative of the exponential remaining fraction is the
    negated activity function — the spec's two formulas are consistent. -/
theorem core_hasDeriv (pk en : ℝ) (hτ : 0 < tauOf pk en) (hen : 0 < en)
    (hlt : 2 * tauOf pk en < en) (t : ℝ) :
    HasDerivAt (expFracCore pk en) (-(expActivity pk en t)) t := by
  have hτ' : tauOf pk en ≠ 0 := ne_of_gt hτ
  have hen' : en ≠ 0 := ne_of_gt hen
  have h1a : (0:ℝ) < 1 - aOf pk en := by
    have := a_lt_one pk en hen hlt; linarith
  have h1a' : 1 - aOf pk en ≠ 0 := ne_of_gt h1a
  have hp : HasDerivAt (fun x : ℝ => x ^ 2) (2 * t) t := by
    simpa using hasDerivAt_pow 2 t
  have hg : HasDerivAt
      (fun x : ℝ => x ^ 2 / (tauOf pk en * en * (1 - aOf pk en)) - x / tauOf pk en - 1)
      (2 * t / (tauOf pk en * en * (1 - aOf pk en)) - 1 / tauOf pk en) t := by
    simpa using ((hp.div_const (tauOf pk en * en * (1 - aOf pk en))).sub
      ((hasDerivAt_id t).div_const (tauOf pk en))).sub_const 1
  have hin : HasDerivAt (fun x : ℝ => -x / tauOf pk en) (-1 / tauOf pk en) t := by
    simpa using (hasDerivAt_id t).neg.div_const (tauOf pk en)
  have hex : HasDerivAt (fun x : ℝ => Real.exp (-x / tauOf pk en))
      (Real.exp (-t / tauOf pk en) * (-1 / tauOf pk en)) t := hin.exp
  have hmul := hg.mul hex
  have hfull := ((hmul.add_const 1).const_mul (sOf pk en * (1 - aOf pk en))).const_sub 1
  have heq : expFracCore pk en = fun x : ℝ => 1 - sOf pk en * (1 - aOf pk en) *
      ((x ^ 2 / (tauOf pk en * en * (1 - aOf pk en)) - x / tauOf pk en - 1) *
        Real.exp (-x / tauOf pk en) + 1) := rfl
  rw [heq]
  convert hfull using 1
  rw [expActivity, aOf] at *
  have hne : en - 2 * tauOf pk en ≠ 0 := by
    have : 0 < en - 2 * tauOf pk en := by linarith
    exact ne_of_gt this
  have h2 : (1 : ℝ) - 2 * tauOf pk en / en ≠ 0 := by
    rw [sub_ne_zero]
    intro h
    apply hne
    field_simp at h
    linarith
  field_simp
  ring

theorem activity_nonneg (pk en : ℝ) (hτ : 0 < tauOf pk en) (hen : 0 < en)
    (hlt : 2 * tauOf pk en < en) (t : ℝ) (ht0 : 0 ≤ t) (hte : t ≤ en) :
    0 ≤ expActivity pk en t := by
  rw [expActivity]
  have hS := s_pos pk en hτ hen hlt
  have h1 : 0 ≤ sOf pk en / (tauOf pk en) ^ 2 := by positivity
  have h2 : 0 ≤ 1 - t / en := by
    rw [sub_nonneg, div_le_one hen]
    exact hte
  exact mul_nonneg (mul_nonneg (mul_nonneg h1 ht0) h2) (Real.exp_pos _).le

theorem core_antitoneOn (pk en : ℝ) (hτ : 0 < tauOf pk en) (hen : 0 < en)
    (hlt : 2 * tauOf pk en < en) :
    AntitoneOn (expFracCore pk en) (Set.Icc 0 en) := by
  have hdiff : Differentiable ℝ (expFracCore pk en) :=
    fun x => (core_hasDeriv pk en hτ hen hlt x).differentiableAt
  apply antitoneOn_of_deriv_nonpos (convex_Icc 0 en)
  · exact hdiff.continuous.continuousOn
  · exact hdiff.differentiableOn
  · intro x hx
    rw [interior_Icc] at hx
    rw [(core_hasDeriv pk en hτ hen hlt x).deriv]
    have := activity_nonneg pk en hτ hen hlt x hx.1.le hx.2.le
    linarith

theorem core_nonneg (pk en : ℝ) (hτ : 0 < tauOf pk en) (hen : 0 < en)
    (hlt : 2 * tauOf pk en < en) (t : ℝ) (ht0 : 0 ≤ t) (hte : t ≤ en) :
    0 ≤ expFracCore pk en t := by
  have h := core_antitoneOn pk en hτ hen hlt (Set.mem_Icc.mpr ⟨ht0, hte⟩)
    (Set.mem_Icc.mpr ⟨hen.le, le_refl en⟩) hte
  rw [core_end pk en hτ hen hlt] at h
  exact h

theorem core_le_one (pk en : ℝ) (hτ : 0 < tauOf pk en) (hen : 0 < en)
    (hlt : 2 * tauOf pk en < en) (t : ℝ) (ht0 : 0 ≤ t) (hte : t ≤ en) :
    expFracCore pk en t ≤ 1 := by
  have h := core_antitoneOn pk en hτ hen hlt (Set.mem_Icc.mpr ⟨le_refl 0, hen.le⟩)
    (Set.mem_Icc.mpr ⟨ht0, hte⟩) ht0
  rw [core_zero] at h
  exact h

theorem expFrac_zero (pk en : ℝ) (hen : 0 < en) : expFrac pk en 0 = 1 := by
  rw [expFrac, if_neg (lt_irrefl 0), if_neg (not_le.mpr hen), core_zero]

theorem expFrac_after (pk en t : ℝ) (h : en ≤ t) : expFrac pk en t = 0 := by
  rw [expFrac]
  split_ifs <;> rfl

theorem expFrac_nonneg (pk en : ℝ) (hτ : 0 < tauOf pk en) (hen : 0 < en)
    (hlt : 2 * tauOf pk en < en) (t : ℝ) : 0 ≤ expFrac pk en t := by
  rw [expFrac]
  split_ifs with h1 h2
  · exact le_refl 0
  · exact le_refl 0
  · exact core_nonneg pk en hτ hen hlt t (not_lt.mp h1) (not_le.mp h2).le

theorem expFrac_le_one (pk en : ℝ) (hτ : 0 < tauOf pk en) (hen : 0 < en)
    (hlt : 2 * tauOf pk en < en) (t : ℝ) : expFrac pk en t ≤ 1 := by
  rw [expFrac]
  split_ifs with h1 h2
  · exact zero_le_one
  · exact zero_le_one
  · exact core_le_one pk en hτ hen hlt t (not_lt.mp h1) (not_le.mp h2).le

theorem expFrac_anti (pk en : ℝ) (hτ : 0 < tauOf pk en) (hen : 0 < en)
    (hlt : 2 * tauOf pk en < en) (s t : ℝ) (hs : 0 ≤ s) (hst : s ≤ t) :
    expFrac pk en t ≤ expFrac pk en s := by
  rcases le_or_lt en t with hten | hten
  · rw [expFrac_after pk en t hten]
    exact expFrac_nonneg pk en hτ hen hlt s
  · have hsen : s < en := lt_of_le_of_lt hst hten
    rw [expFrac, if_neg (not_lt.mpr (le_trans hs hst)), if_neg (not_le.mpr hten),
      expFrac, if_neg (not_lt.mpr hs), if_neg (not_le.mpr hsen)]
    exact core_antitoneOn pk en hτ hen hlt (Set.mem_Icc.mpr ⟨hs, hsen.le⟩)
      (Set.mem_Icc.mpr ⟨le_trans hs hst, hten.le⟩) hst

theorem tau75_pos : 0 < tauOf 75 300 := by norm_num [tauOf]

theorem tau75_lt : 2 * tauOf 75 300 < 300 := by norm_num [tauOf]

theorem tau55_pos : 0 < tauOf 55 300 := by norm_num [tauOf]

theorem tau55_lt : 2 * tauOf 55 300 < 300 := by norm_num [tauOf]

theorem bilin_zero : bilinFrac 0 = 1 := by norm_num [bilinFrac]

theorem bilin_after (t : ℝ) (h : (180:ℝ) ≤ t) : bilinFrac t = 0 := by
  rw [bilinFrac, if_neg (not_lt.mpr (by linarith : (0:ℝ) ≤ t)), if_pos h]

theorem bilin_nonneg (t : ℝ) (ht : 0 ≤ t) : 0 ≤ bilinFrac t := by
  rw [bilinFrac]
  split_ifs with h1 h2 h3
  · linarith
  · exact le_refl 0
  · nlinarith
  · positivity

theorem bilin_le_one (t : ℝ) (ht : 0 ≤ t) : bilinFrac t ≤ 1 := by
  rw [bilinFrac]
  split_ifs with h1 h2 h3
  · linarith
  · exact zero_le_one
  · nlinarith
  · nlinarith

theorem bilin_anti (s t : ℝ) (hs : 0 ≤ s) (hst : s ≤ t) : bilinFrac t ≤ bilinFrac s := by
  rw [bilinFrac, bilinFrac]
  split_ifs <;> first
    | linarith
    | positivity
    | nlinarith [sq_nonneg (s - 75), sq_nonneg (t - 75), sq_nonneg (180 - t),
        sq_nonneg (180 - s), sq_nonneg (t - s)]

/-- C3: for every curve variant, the one-unit remaining fraction at elapsed
    time `t ≥ 0` lies in `[0,1]`, is monotonically non-increasing, equals 1
    at `t = 0` (so a bolus's IOB contribution at `t = 0` is the full dose),
    and is exactly 0 for every `t` at or after DIA. -/
theorem c3_remaining_fraction (c : InsulinCurve) (t : ℝ) (ht : 0 ≤ t) :
    0 ≤ iobRemainingFrac c t ∧ iobRemainingFrac c t ≤ 1 ∧
    (∀ u, t ≤ u → iobRemainingFrac c u ≤ iobRemainingFrac c t) ∧
    iobRemainingFrac c 0 = 1 ∧
    (∀ dose : ℝ, calculate_iob_contrib c dose 0 = dose) ∧
    (((c.min_dia : ℚ) : ℝ) * 60 ≤ t → iobRemainingFrac c t = 0) := by
  cases c
  case Bilinear =>
    simp only [iobRemainingFrac, calculate_iob_contrib]
    refine ⟨bilin_nonneg t ht, bilin_le_one t ht, fun u hu => bilin_anti t u ht hu,
      bilin_zero, fun d => by rw [bilin_zero, mul_one], fun hd => ?_⟩
    apply bilin_after
    have : (((InsulinCurve.min_dia .Bilinear : ℚ)) : ℝ) * 60 = 180 := by
      norm_num [InsulinCurve.min_dia]
    linarith [hd, this]
  case RapidActing =>
    have hτ := tau75_pos
    have hen : (0:ℝ) < 300 := by norm_num
    have hlt := tau75_lt
    simp only [iobRemainingFrac, calculate_iob_contrib]
    refine ⟨expFrac_nonneg 75 300 hτ hen hlt t, expFrac_le_one 75 300 hτ hen hlt t,
      fun u hu => expFrac_anti 75 300 hτ hen hlt t u ht hu,
      expFrac_zero 75 300 hen, fun d => by rw [expFrac_zero 75 300 hen, mul_one],
      fun hd => ?_⟩
    apply expFrac_after
    have : (((InsulinCurve.min_dia .RapidActing : ℚ)) : ℝ) * 60 = 300 := by
      norm_num [InsulinCurve.min_dia]
    linarith [hd, this]
  case UltraRapid =>
    have hτ := tau55_pos
    have hen : (0:ℝ) < 300 := by norm_num
    have hlt := tau55_lt
    simp only [iobRemainingFrac, calculate_iob_contrib]
    refine ⟨expFrac_nonneg 55 300 hτ hen hlt t, expFrac_le_one 55 300 hτ hen hlt t,
      fun u hu => expFrac_anti 55 300 hτ hen hlt t u ht hu,
      expFrac_zero 55 300 hen, fun d => by rw [expFrac_zero 55 300 hen, mul_one],
      fun hd => ?_⟩
    apply expFrac_after
    have : (((InsulinCurve.min_dia .UltraRapid : ℚ)) : ℝ) * 60 = 300 := by
      norm_num [InsulinCurve.min_dia]
    linarith [hd, this]

/-- Witness for C3: Scenario A of the spec — a 5-unit bolus on the
    rapid-acting exponential curve has IOB 5.0 at `t = 0` and 0 at
    `t = 300` minutes (DIA 5 h). -/
theorem c3_remaining_fraction_witness :
    iobRemainingFrac .RapidActing 0 = 1 ∧
    calculate_iob_contrib .RapidActing 5 0 = 5 ∧
    iobRemainingFrac .RapidActing 300 = 0 := by
  have h0 := c3_remaining_fraction .RapidActing 0 le_rfl
  have h3 := c3_remaining_fraction .RapidActing 300 (by norm_num)
  refine ⟨h0.2.2.2.1, ?_, h3.2.2.2.2.2 (by norm_num [InsulinCurve.min_dia])⟩
  have := h0.2.2.2.2.1 5
  simpa using this

/-- Witness for C10: a mixed-case underscored spelling parses, an unknown
    name is rejected. -/
theorem c10_display_fromstr_roundtrip_witness :
    InsulinCurve.fromStr "RAPID_Acting" = .ok .RapidActing ∧
    (∃ e, InsulinCurve.fromStr "humalog" = .error e) ∧
    InsulinCurve.fromStr "ultra-rapid" = .ok .UltraRapid := by
  have h := c10_display_fromstr_roundtrip
  exact ⟨h.2.2.1 "RAPID_Acting" .RapidActing (by decide),
    h.2.2.2 "humalog" (by intro c; cases c <;> decide),
    h.1 .UltraRapid⟩

end Oref
